import Mathlib

/-!
Verification of `bliss/core/api.py` (BLISS API module).

The Python source is shallowly embedded below: `collections.deque` with an
optional `maxlen` is modelled as a `List` (leftmost element first) together
with the eviction discipline of a bounded deque; the gevent `Event` owned by
`GeventDeque` is a `Bool` field; exceptions are modelled by explicit outcome
types.  Control flow, including the places where the Python code slips
(the wait loop of `_pop` nested under `if timeout is not None`, the
`timeout.cancel()` call on a number, the `self._create` call on a class that
only defines `create`), is reproduced faithfully.
-/

namespace BlissCore

/-- One step of `collections.deque.append` under an optional `maxlen`:
the new element goes on the right, and if the deque would exceed `maxlen`
elements are discarded from the left. -/
def dequeAppend (maxlen : Option Nat) (l : List α) (x : α) : List α :=
  match maxlen with
  | none => l ++ [x]
  | some cap => (l ++ [x]).drop (l.length + 1 - cap)

/-- One step of `collections.deque.appendleft` under an optional `maxlen`:
the new element goes on the left, and if the deque would exceed `maxlen`
elements are discarded from the right. -/
def dequeAppendLeft (maxlen : Option Nat) (l : List α) (x : α) : List α :=
  match maxlen with
  | none => x :: l
  | some cap => (x :: l).take cap

/-- State of a `GeventDeque`: the underlying `collections.deque` contents
(leftmost first), its `maxlen`, and the `notEmpty` gevent event. -/
structure GeventDeque (α : Type) where
  items : List α
  maxlen : Option Nat
  notEmpty : Bool
  deriving Repr

/-- `GeventDeque.__init__`: the deque is initialised left-to-right using
`append` from `iterable`, and `notEmpty` is set exactly when the result is
non-empty (the fresh `gevent.event.Event()` starts cleared). -/
def GeventDeque.init (iterable : List α) (maxlen : Option Nat) : GeventDeque α :=
  let items := iterable.foldl (dequeAppend maxlen) []
  { items := items, maxlen := maxlen, notEmpty := decide (0 < items.length) }

/-- `GeventDeque.append`: push on the right, then `notEmpty.set()`. -/
def GeventDeque.append (d : GeventDeque α) (x : α) : GeventDeque α :=
  { d with items := dequeAppend d.maxlen d.items x, notEmpty := true }

/-- `GeventDeque.appendleft`: push on the left, then `notEmpty.set()`. -/
def GeventDeque.appendleft (d : GeventDeque α) (x : α) : GeventDeque α :=
  { d with items := dequeAppendLeft d.maxlen d.items x, notEmpty := true }

/-- `GeventDeque.clear`: drop all elements and `notEmpty.clear()`. -/
def GeventDeque.clear (d : GeventDeque α) : GeventDeque α :=
  { d with items := [], notEmpty := false }

/-- `GeventDeque.extend`: fold `deque.append` over the iterable, then
`notEmpty.set()` only when the result is non-empty. -/
def GeventDeque.extend (d : GeventDeque α) (xs : List α) : GeventDeque α :=
  let items := xs.foldl (dequeAppend d.maxlen) d.items
  { d with items := items
           notEmpty := if 0 < items.length then true else d.notEmpty }

/-- `GeventDeque.extendleft`: fold `deque.appendleft` over the iterable, then
`notEmpty.set()` only when the result is non-empty. -/
def GeventDeque.extendleft (d : GeventDeque α) (xs : List α) : GeventDeque α :=
  let items := xs.foldl (dequeAppendLeft d.maxlen) d.items
  { d with items := items
           notEmpty := if 0 < items.length then true else d.notEmpty }

/-- Removing one element from a deque: from the left (`popleft`) or the right
(`pop`), returning the removed element (if any) and the remaining list. -/
def popList (left : Bool) (l : List α) : Option α × List α :=
  match left, l with
  | _, [] => (none, [])
  | true, x :: rest => (some x, rest)
  | false, l => (l.getLast?, l.dropLast)

/-- Python exceptions that can escape `GeventDeque._pop`. -/
inductive PyExn
  | indexError
  | attrError
  deriving Repr, DecidableEq

/-- How a call to `GeventDeque._pop` completes: a normal `return item`
(where `item` may still be the initial `None`), or an exception. -/
inductive PopResult (α : Type)
  | returns (item : Option α)
  | raises (e : PyExn)
  deriving Repr

/-- Result and post-state of a `_pop` call. -/
structure PopOutcome (α : Type) where
  result : PopResult α
  state : GeventDeque α

/-- Model of `GeventDeque._pop(block, timeout, left)`, for entry states
satisfying the intended signal invariant `notEmpty = (items ≠ [])`.

The source initialises `item = None` and only enters the wait/pop loop when
`block` is true AND `timeout is not None` (the loop is nested under the
`if timeout is not None:` test), so the blocking-without-timeout path falls
straight through and returns `None`.  On the timed path the `finally:` clause
runs `timeout.cancel()` — but `timeout` is a number, so this raises
`AttributeError` whether the loop obtained an item, and the trailing
`if len(deque) == 0: notEmpty.clear()` is never reached.

`availableInTime` models, for a timed pop that finds the deque empty, whether
another task appends `arrival` (on the right) before the `gevent.Timeout`
elapses; if not, the timeout raises the prepared `IndexError` inside the
wait, which the `finally:` clause then replaces with `AttributeError`. -/
def GeventDeque.popModel (d : GeventDeque α) (block : Bool) (timeout : Option ℚ)
    (left availableInTime : Bool) (arrival : α) : PopOutcome α :=
  match block, timeout with
  | false, _ =>
    match d.items with
    | [] => { result := .raises .indexError, state := d }
    | x :: rest =>
      let r := popList left (x :: rest)
      { result := .returns r.1
        state := { d with items := r.2
                          notEmpty := if r.2.length = 0 then false else d.notEmpty } }
  | true, none =>
    { result := .returns none
      state := { d with notEmpty := if d.items.length = 0 then false else d.notEmpty } }
  | true, some _ =>
    match d.items with
    | x :: rest =>
      let r := popList left (x :: rest)
      { result := .raises .attrError, state := { d with items := r.2 } }
    | [] =>
      if availableInTime then
        let pushed := dequeAppend d.maxlen [] arrival
        let r := popList left pushed
        { result := .raises .attrError
          state := { d with items := r.2, notEmpty := true } }
      else
        { result := .raises .attrError, state := d }

/-- A single push operation on a `GeventDeque`, from either end. -/
inductive PushOp (α : Type)
  | right (x : α)
  | left (x : α)

/-- Apply one push operation. -/
def GeventDeque.applyPush (d : GeventDeque α) : PushOp α → GeventDeque α
  | .right x => d.append x
  | .left x => d.appendleft x

/-- Apply a sequence of push operations, oldest first. -/
def GeventDeque.applyPushes (d : GeventDeque α) (ops : List (PushOp α)) : GeventDeque α :=
  ops.foldl GeventDeque.applyPush d

/-- A telemetry packet, treated opaquely: a record with named fields whose
values can be read back (`tlm.Packet` field access). -/
structure Packet where
  fieldVal : String → Int

/-- `PacketBuffers`: a dict from packet-type name to one `GeventDeque` of
packets, modelled as an association list. -/
abbrev PacketBuffers := List (String × GeventDeque Packet)

/-- `PacketBuffers.create(name, capacity)`: if `name` is absent, bind it to a
fresh empty `GeventDeque(maxlen=capacity)` and report `True`; otherwise leave
the dict alone and report `False`. -/
def PacketBuffers.create (r : PacketBuffers) (name : String) (capacity : Nat) :
    PacketBuffers × Bool :=
  if (List.lookup name r).isSome then (r, false)
  else ((name, GeventDeque.init [] (some capacity)) :: r, true)

/-- How a call to `PacketBuffers.insert` completes. -/
inductive InsertOutcome
  | ok (r : PacketBuffers)
  | attrError

/-- Model of `PacketBuffers.insert(name, packet)`.  When `name` is present
the packet is pushed with `appendleft` (most-recent end).  When `name` is
absent the source calls `self._create(name)` — but the class only defines
`create`, so attribute lookup fails and the call raises `AttributeError`
before anything is inserted. -/
def PacketBuffers.insert (r : PacketBuffers) (name : String) (pkt : Packet) :
    InsertOutcome :=
  if (List.lookup name r).isSome then
    .ok (r.map fun e => if e.1 = name then (e.1, e.2.appendleft pkt) else e)
  else
    .attrError

/-- `TlmWrapper`: wraps the packet list of one buffer (index 0 = most
recent).  Field access forwards to the packet at index 0; indexed access
returns the packet at that recency position. -/
structure TlmWrapper where
  packets : List Packet

/-- `TlmWrapper.__getattr__`: read a field of the most recent packet
(`none` models the `IndexError` on an empty buffer). -/
def TlmWrapper.getattr (w : TlmWrapper) (name : String) : Option Int :=
  w.packets.head?.map fun p => p.fieldVal name

/-- `TlmWrapper.__getitem__`. -/
def TlmWrapper.getitem (w : TlmWrapper) (i : Nat) : Option Packet :=
  w.packets.get? i

/-- A command object as produced by the command dictionary: its name, the
verdict and messages of `validate`, and its encoded bytes.  (External
collaborator, consumed through this narrow contract.) -/
structure CmdObj where
  name : String
  valid : Bool
  messages : List String
  encoded : List Nat

/-- Behaviour of the UDP transport for one `sendto` call: success, or a
`socket.error` / `IOError` carrying the text that `e.message` yields. -/
inductive SendFailure
  | socketError (msg : String)
  | ioError (msg : String)

/-- Observable outcome of `CmdAPI.send`: the returned status, the datagrams
transmitted, the strings passed to `log.error`, and whether an exception
escaped the call. -/
structure SendOutcome where
  status : Bool
  datagrams : List (List Nat)
  errorLog : List String
  raised : Bool
  deriving Repr, DecidableEq

/-- The message logged for a caught transport exception (`log.error(e.message)`). -/
def SendFailure.message : SendFailure → String
  | .socketError m => m
  | .ioError m => m

/-- Model of `CmdAPI.send` after the command object has been created: if
`validate` fails, each collected message is logged and `False` is returned
with nothing sent; if it succeeds, the encoded bytes are sent as one datagram
and `True` is returned, except that a `socket.error` or `IOError` from
`sendto` is caught, its message logged, and `False` returned. -/
def CmdAPI.send (c : CmdObj) (transport : Option SendFailure) : SendOutcome :=
  if c.valid then
    match transport with
    | none => { status := true, datagrams := [c.encoded], errorLog := [], raised := false }
    | some f => { status := false, datagrams := [], errorLog := [f.message], raised := false }
  else
    { status := false, datagrams := [], errorLog := c.messages, raised := false }

/-- The condition argument of `wait`, by the type tests the source performs:
a number (`int`/`float` — note `type(True)` is `bool`, so booleans do NOT
take this branch), a plain value used for its truthiness, or a condition
evaluated anew each iteration (a callable, or a source string evaluated in
the caller's scope, abstracted as an iteration-indexed boolean). -/
inductive Cond
  | num (units : ℚ)
  | boolVal (b : Bool)
  | predFn (f : Nat → Bool)

/-- Truth value of a non-numeric condition at polling iteration `n`. -/
def Cond.eval : Cond → Nat → Bool
  | .num _, _ => true
  | .boolVal b, _ => b
  | .predFn f, n => f n

/-- Observable outcome of `wait`: the returned status, the total time spent
in `gevent.sleep`, and how many times the condition was evaluated. -/
structure WaitResult where
  status : Bool
  sleptUnits : ℚ
  condEvals : Nat
  deriving Repr, DecidableEq

/-- The polling loop of `wait`, at iteration `n`: first test `n == timeout`,
then evaluate the condition, then `gevent.sleep(1)` and repeat.  `fuel`
bounds the number of iterations modelled; `none` means the loop did not
finish within the given fuel (the source loop can run forever). -/
def waitLoop (c : Cond) (timeout : Option Nat) : Nat → Nat → Option WaitResult
  | 0, _ => none
  | fuel + 1, n =>
    if timeout = some n then some { status := false, sleptUnits := n, condEvals := n }
    else if c.eval n then some { status := true, sleptUnits := n, condEvals := n + 1 }
    else waitLoop c timeout fuel (n + 1)

/-- Model of `wait(cond, timeout)`: a numeric condition sleeps for that many
time units and succeeds without ever being evaluated; any other condition
enters the polling loop. -/
def wait (c : Cond) (timeout : Option Nat) (fuel : Nat) : Option WaitResult :=
  match c with
  | .num u => some { status := true, sleptUnits := u, condEvals := 0 }
  | _ => waitLoop c timeout fuel 0

/-- A packet definition, identified by its packet-type name (external
collaborator; the decoding rule is irrelevant here). -/
structure PacketDefn where
  name : String

/-- Observable outcome of `Instrument.__init__` for claim C7: which packet
definition was selected (`none` when construction raised the
`TypeError('No packets defined in default TLM dictionary.')`, the failure the
spec calls `NoDefaultPacketType`), and whether the telemetry listener was
started (the raise happens before the listener is even constructed). -/
structure InitOutcome where
  selected : Option PacketDefn
  listenerStarted : Bool

/-- Model of the definition-selection logic of `Instrument.__init__`: with an
explicit definition it is used as given; otherwise the keys of the default
telemetry dictionary are sorted, construction fails if there are none, and
the dictionary entry at the first sorted key is selected.  (The final
`lookup` cannot miss, since the first sorted key is a key of the dict.) -/
def Instrument.init (tlmdict : List (String × PacketDefn)) (defn : Option PacketDefn) :
    InitOutcome :=
  match defn with
  | some d => { selected := some d, listenerStarted := true }
  | none =>
    match List.insertionSort (fun a b => a ≤ b) (tlmdict.map Prod.fst) with
    | [] => { selected := none, listenerStarted := false }
    | n :: _ =>
      match List.lookup n tlmdict with
      | some d => { selected := some d, listenerStarted := true }
      | none => { selected := none, listenerStarted := false }

/-- A concrete two-entry telemetry dictionary used to witness C7. -/
def sampleTlmDict : List (String × PacketDefn) :=
  [("HS_Packet", PacketDefn.mk "HS_Packet"), ("CCSDS_Header", PacketDefn.mk "CCSDS_Header")]

/-- Claim C1: a pop with `block=True` and no timeout is supposed to suspend
until an element is present, then remove and return it, and never return
without doing so.  The code instead returns `None` at once, removing nothing,
even when an element is already present: on the deque `[1]`, the call
completes normally with `None` while the deque still holds `[1]`. -/
theorem c1_blocking_pop_returns_none :
    ((GeventDeque.mk [1] none true).popModel true none false false 0).result
        = PopResult.returns none
    ∧ ((GeventDeque.mk [1] none true).popModel true none false false 0).state.items
        = [1] := by
  exact ⟨rfl, rfl⟩

/-- Claim C3: a pop with `block=True` and a timeout is supposed to either
return an element that arrived in time or fail with `Empty` (`IndexError`).
Because the `finally:` clause calls `timeout.cancel()` on a number, every
timed pop — element available at entry, element arriving in time, or timeout
elapsing — completes by raising `AttributeError` instead. -/
theorem c3_timed_pop_raises_attrError (α : Type) (d : GeventDeque α) (t : ℚ)
    (left avail : Bool) (arr : α) :
    (d.popModel true (some t) left avail arr).result = PopResult.raises PyExn.attrError := by
  unfold GeventDeque.popModel
  rcases d with ⟨items, m, ne⟩
  cases items with
  | nil => cases avail <;> rfl
  | cons x rest => rfl

/-- Claim C5: the `notEmpty` signal is supposed to be set exactly when the
deque is non-empty after every completed operation.  A timed pop on the
one-element deque `[7]` removes the element, but the `AttributeError` raised
by `timeout.cancel()` in the `finally:` clause skips the
`if len(deque) == 0: notEmpty.clear()` step, leaving the signal set on an
empty deque. -/
theorem c5_signal_desync :
    ((GeventDeque.mk [7] none true).popModel true (some 1) false false 0).state.items = []
    ∧ ((GeventDeque.mk [7] none true).popModel true (some 1) false false 0).state.notEmpty
        = true
    ∧ ((GeventDeque.mk [7] none true).popModel true (some 1) false false 0).result
        = PopResult.raises PyExn.attrError := by
  exact ⟨rfl, rfl, rfl⟩

/-- Claim C9: with the queue empty, a caller that invokes a blocking pop is
supposed to suspend and eventually receive a pushed item (or time out).  The
code's blocking pop completes immediately with `None` — the caller receives
no item and has not timed out — and an item pushed afterwards sits in the
queue, delivered to no waiter. -/
theorem c9_no_handoff :
    ((GeventDeque.init ([] : List Nat) none).popModel true none false false 0).result
        = PopResult.returns none
    ∧ (((GeventDeque.init ([] : List Nat) none).popModel
          true none false false 0).state.append 5).items = [5] := by
  exact ⟨rfl, rfl⟩

/-- Claim C2: `insert(typeName, packet)` is supposed to create the buffer
(with default capacity) when `typeName` is absent and then push the packet.
Because the source calls the non-existent method `self._create`, an insert
into a registry that has no buffer for the name raises `AttributeError`
instead, and nothing is created or inserted. -/
theorem c2_insert_missing_buffer_raises (name : String) (pkt : Packet) :
    PacketBuffers.insert [] name pkt = InsertOutcome.attrError := by
  rfl

/-- Claim C6: `send` returns `False` with no datagram when validation fails
(logging every message); returns `True` having sent exactly one datagram —
the encoded bytes — when validation succeeds and the transport cooperates;
and on a transport failure it logs the error and returns `False` without
raising. -/
theorem c6_send_behavior (c : CmdObj) (f : SendFailure) :
    (c.valid = false →
      ∀ t, CmdAPI.send c t
        = { status := false, datagrams := [], errorLog := c.messages, raised := false })
    ∧ (c.valid = true →
      CmdAPI.send c none
        = { status := true, datagrams := [c.encoded], errorLog := [], raised := false })
    ∧ (c.valid = true →
      CmdAPI.send c (some f)
        = { status := false, datagrams := [], errorLog := [f.message], raised := false }) := by
  refine ⟨fun h t => ?_, fun h => ?_, fun h => ?_⟩ <;> simp [CmdAPI.send, h]

/-- Witness for C6 at a concrete invalid command, a concrete valid command,
and a concrete transport failure. -/
theorem c6_send_behavior_witness :
    (CmdObj.mk "NO_OP" false ["bad argument"] [1, 2]).valid = false
    ∧ CmdAPI.send (CmdObj.mk "NO_OP" false ["bad argument"] [1, 2]) none
        = { status := false, datagrams := [], errorLog := ["bad argument"], raised := false }
    ∧ (CmdObj.mk "NO_OP" true [] [1, 2]).valid = true
    ∧ CmdAPI.send (CmdObj.mk "NO_OP" true [] [1, 2]) none
        = { status := true, datagrams := [[1, 2]], errorLog := [], raised := false }
    ∧ CmdAPI.send (CmdObj.mk "NO_OP" true [] [1, 2]) (some (SendFailure.socketError "unreachable"))
        = { status := false, datagrams := [], errorLog := ["unreachable"], raised := false } :=
  ⟨rfl,
   (c6_send_behavior (CmdObj.mk "NO_OP" false ["bad argument"] [1, 2])
      (SendFailure.socketError "unreachable")).1 rfl none,
   rfl,
   (c6_send_behavior (CmdObj.mk "NO_OP" true [] [1, 2])
      (SendFailure.socketError "unreachable")).2.1 rfl,
   (c6_send_behavior (CmdObj.mk "NO_OP" true [] [1, 2])
      (SendFailure.socketError "unreachable")).2.2 rfl⟩

/-- Claim C8: `wait(True)` returns `True` immediately (after zero polling
sleeps, one condition evaluation — `type(True)` is `bool`, not `int`, so the
boolean takes the polling branch and succeeds at once); `wait(False, 2)`
returns `False` after exactly 2 one-unit polling sleeps; `wait(u)` for a
numeric `u` sleeps `u` time units and returns `True`. -/
theorem c8_wait_behavior (u : ℚ) (fuel : Nat) :
    wait (Cond.boolVal true) none (fuel + 1)
        = some { status := true, sleptUnits := 0, condEvals := 1 }
    ∧ wait (Cond.boolVal false) (some 2) (fuel + 3)
        = some { status := false, sleptUnits := 2, condEvals := 2 }
    ∧ wait (Cond.num u) none fuel
        = some { status := true, sleptUnits := u, condEvals := 0 } := by
  refine ⟨rfl, ?_, rfl⟩
  show waitLoop (Cond.boolVal false) (some 2) (fuel + 3) 0 = _
  simp [waitLoop, Cond.eval]

/-- Claim C10: with `timeout=0` and any non-numeric condition, the loop's
first action is the `n == timeout` test at `n = 0`, so `wait` returns
`False` immediately — zero sleeps — and the condition is never evaluated,
even one that would be true. -/
theorem c10_wait_zero_iterations (b : Bool) (f : Nat → Bool) (fuel : Nat) :
    wait (Cond.boolVal b) (some 0) (fuel + 1)
        = some { status := false, sleptUnits := 0, condEvals := 0 }
    ∧ wait (Cond.predFn f) (some 0) (fuel + 1)
        = some { status := false, sleptUnits := 0, condEvals := 0 } := by
  exact ⟨rfl, rfl⟩

/-- A name that occurs among the keys of an association list can be looked
up: helper for reasoning about `tlmdict[names[0]]`. -/
theorem lookup_isSome_of_mem_fst {β : Type} :
    ∀ (l : List (String × β)) (a : String),
      a ∈ l.map Prod.fst → ∃ d, List.lookup a l = some d := by
  intro l
  induction l with
  | nil => intro a h; simp at h
  | cons e rest ih =>
    intro a h
    by_cases hk : a = e.1
    · exact ⟨e.2, by simp [List.lookup, hk]⟩
    · have hmem : a ∈ rest.map Prod.fst := by
        simpa [hk] using h
      obtain ⟨d, hd⟩ := ih a hmem
      have hbeq : (a == e.1) = false := beq_eq_false_iff_ne.mpr hk
      exact ⟨d, by simp [List.lookup, hbeq, hd]⟩

/-- Claim C7: an `Instrument` built without an explicit packet definition
selects the dictionary entry whose packet-type name is alphabetically first;
with an empty default telemetry dictionary, construction raises the
no-default-packet-type `TypeError` before any listener is started. -/
theorem c7_default_defn_selection (tlmdict : List (String × PacketDefn)) :
    (tlmdict = [] →
      Instrument.init tlmdict none = { selected := none, listenerStarted := false })
    ∧ (tlmdict ≠ [] →
      ∃ k d, List.lookup k tlmdict = some d
        ∧ (∀ e ∈ tlmdict.map Prod.fst, k ≤ e)
        ∧ Instrument.init tlmdict none
            = { selected := some d, listenerStarted := true }) := by
  constructor
  · rintro rfl; rfl
  · intro hne
    have hperm := List.perm_insertionSort (fun a b : String => a ≤ b) (tlmdict.map Prod.fst)
    have hsorted := List.sorted_insertionSort (fun a b : String => a ≤ b) (tlmdict.map Prod.fst)
    cases hs : List.insertionSort (fun a b : String => a ≤ b) (tlmdict.map Prod.fst) with
    | nil =>
      exfalso
      rw [hs] at hperm
      have hmap : tlmdict.map Prod.fst = [] := hperm.symm.eq_nil
      exact hne (List.map_eq_nil_iff.mp hmap)
    | cons n rest =>
      have hn : n ∈ tlmdict.map Prod.fst := by
        have hmem : n ∈ List.insertionSort (fun a b : String => a ≤ b) (tlmdict.map Prod.fst) := by
          rw [hs]; exact List.mem_cons_self n rest
        exact hperm.mem_iff.mp hmem
      obtain ⟨d, hd⟩ := lookup_isSome_of_mem_fst tlmdict n hn
      refine ⟨n, d, hd, ?_, ?_⟩
      · intro e he
        have he2 : e ∈ n :: rest := by
          rw [← hs]; exact hperm.mem_iff.mpr he
        rcases List.mem_cons.mp he2 with h | h
        · exact le_of_eq h.symm
        · rw [hs] at hsorted
          exact (List.sorted_cons.mp hsorted).1 e h
      · unfold Instrument.init
        rw [hs]
        simp [hd]

/-- Witness for C7 at a concrete two-entry dictionary. -/
theorem c7_default_defn_selection_witness :
    sampleTlmDict ≠ []
    ∧ ∃ k d, List.lookup k sampleTlmDict = some d
        ∧ (∀ e ∈ sampleTlmDict.map Prod.fst, k ≤ e)
        ∧ Instrument.init sampleTlmDict none
            = { selected := some d, listenerStarted := true } :=
  ⟨List.cons_ne_nil _ _,
   (c7_default_defn_selection sampleTlmDict).2 (List.cons_ne_nil _ _)⟩

/-- One bounded right-push never leaves more than `cap` elements. -/
theorem length_dequeAppend_le (cap : Nat) (l : List α) (x : α) :
    (dequeAppend (some cap) l x).length ≤ cap := by
  simp [dequeAppend]
  omega

/-- One bounded left-push never leaves more than `cap` elements. -/
theorem length_dequeAppendLeft_le (cap : Nat) (l : List α) (x : α) :
    (dequeAppendLeft (some cap) l x).length ≤ cap := by
  simp [dequeAppendLeft]

/-- Folding bounded right-pushes keeps the length within `cap`. -/
theorem length_foldl_dequeAppend_le (cap : Nat) :
    ∀ (xs l : List α), l.length ≤ cap →
      (xs.foldl (dequeAppend (some cap)) l).length ≤ cap := by
  intro xs
  induction xs with
  | nil => intro l h; simpa using h
  | cons x xs ih => intro l _h; exact ih _ (length_dequeAppend_le cap l x)

/-- Any mixed sequence of pushes on a deque bounded by `cap` keeps the
length within `cap`. -/
theorem length_applyPushes_le (cap : Nat) (ops : List (PushOp α)) :
    ∀ d : GeventDeque α, d.maxlen = some cap → d.items.length ≤ cap →
      (d.applyPushes ops).items.length ≤ cap := by
  induction ops with
  | nil => exact fun _ _ h => h
  | cons op ops ih =>
    intro d hm _h
    show ((d.applyPush op).applyPushes ops).items.length ≤ cap
    cases op with
    | right x =>
      refine ih _ hm ?_
      show (dequeAppend d.maxlen d.items x).length ≤ cap
      rw [hm]
      exact length_dequeAppend_le cap d.items x
    | left x =>
      refine ih _ hm ?_
      show (dequeAppendLeft d.maxlen d.items x).length ≤ cap
      rw [hm]
      exact length_dequeAppendLeft_le cap d.items x

/-- A fold of bounded right-pushes retains exactly the trailing `cap`
elements of the combined sequence. -/
theorem foldl_dequeAppend_eq (cap : Nat) :
    ∀ (xs l : List α), l.length ≤ cap →
      xs.foldl (dequeAppend (some cap)) l
        = (l ++ xs).drop (l.length + xs.length - cap) := by
  intro xs
  induction xs with
  | nil =>
    intro l h
    simp
    rw [Nat.sub_eq_zero_of_le h, List.drop_zero]
  | cons x xs ih =>
    intro l h
    have h1 : (dequeAppend (some cap) l x).length ≤ cap := length_dequeAppend_le cap l x
    show xs.foldl (dequeAppend (some cap)) (dequeAppend (some cap) l x)
        = (l ++ x :: xs).drop (l.length + (x :: xs).length - cap)
    rw [ih _ h1]
    have hlen : (dequeAppend (some cap) l x).length
        = l.length + 1 - (l.length + 1 - cap) := by
      simp [dequeAppend]
    have ha : l.length + 1 - cap ≤ (l ++ [x]).length := by
      simp
    show ((l ++ [x]).drop (l.length + 1 - cap) ++ xs).drop
          ((dequeAppend (some cap) l x).length + xs.length - cap)
        = (l ++ x :: xs).drop (l.length + (x :: xs).length - cap)
    rw [hlen, ← List.drop_append_of_le_length ha, List.drop_drop,
        List.append_assoc, List.singleton_append]
    congr 1
    simp only [List.length_cons]
    omega

/-- A fold of bounded left-pushes retains the first `cap` elements of the
reversed push sequence followed by the old contents. -/
theorem foldl_dequeAppendLeft_eq (cap : Nat) :
    ∀ (xs l : List α), l.length ≤ cap →
      xs.foldl (dequeAppendLeft (some cap)) l = (xs.reverse ++ l).take cap := by
  intro xs
  induction xs with
  | nil =>
    intro l h
    simpa using (List.take_of_length_le h).symm
  | cons x xs ih =>
    intro l h
    have h1 : (dequeAppendLeft (some cap) l x).length ≤ cap :=
      length_dequeAppendLeft_le cap l x
    show xs.foldl (dequeAppendLeft (some cap)) (dequeAppendLeft (some cap) l x)
        = ((x :: xs).reverse ++ l).take cap
    rw [ih _ h1]
    show (xs.reverse ++ (x :: l).take cap).take cap = ((x :: xs).reverse ++ l).take cap
    simp only [List.reverse_cons, List.append_assoc, List.singleton_append,
      List.take_append_eq_append_take, List.take_take]
    congr 2
    exact min_eq_left (Nat.sub_le cap xs.reverse.length)

/-- A sequence of right-pushes acts on the items as the corresponding fold
of `deque.append` steps. -/
theorem applyPushes_right_items (cap : Nat) (xs : List α) :
    ∀ d : GeventDeque α, d.maxlen = some cap →
      (d.applyPushes (xs.map PushOp.right)).items
        = xs.foldl (dequeAppend (some cap)) d.items := by
  induction xs with
  | nil => intro d _; rfl
  | cons x xs ih =>
    intro d hm
    show ((d.append x).applyPushes (xs.map PushOp.right)).items = _
    rw [ih (d.append x) hm]
    show xs.foldl _ (dequeAppend d.maxlen d.items x) = _
    rw [hm, List.foldl_cons]

/-- A sequence of left-pushes acts on the items as the corresponding fold of
`deque.appendleft` steps. -/
theorem applyPushes_left_items (cap : Nat) (xs : List α) :
    ∀ d : GeventDeque α, d.maxlen = some cap →
      (d.applyPushes (xs.map PushOp.left)).items
        = xs.foldl (dequeAppendLeft (some cap)) d.items := by
  induction xs with
  | nil => intro d _; rfl
  | cons x xs ih =>
    intro d hm
    show ((d.appendleft x).applyPushes (xs.map PushOp.left)).items = _
    rw [ih (d.appendleft x) hm]
    show xs.foldl _ (dequeAppendLeft d.maxlen d.items x) = _
    rw [hm, List.foldl_cons]

/-- Claim C4, counterexample at capacity `0`: a deque with `maxlen=0` is full
while empty (`len == capacity`), and a push onto it retains nothing — in
particular the result differs from "evict exactly one element from the
opposite end and insert the new element" (`drop 1` then append), which would
give `[1]`. -/
theorem c4_counterexample :
    (GeventDeque.init ([] : List Nat) (some 0)).items.length = 0
    ∧ ((GeventDeque.init ([] : List Nat) (some 0)).append 1).items
        ≠ (GeventDeque.init ([] : List Nat) (some 0)).items.drop 1 ++ [1] := by
  refine ⟨rfl, ?_⟩
  intro h
  simp [GeventDeque.init, GeventDeque.append, dequeAppend] at h

/-- Claim C4 as amended: for a queue created with any capacity, no sequence
of pushes ever drives the length above the capacity; for a POSITIVE capacity,
a push onto a full queue evicts exactly one element from the end opposite
the insertion end; and after a run of same-end pushes at least as long as
the capacity, the retained elements are exactly the most recently pushed
`capacity` items in insertion order (read from the insertion end for left
pushes). -/
theorem c4_capacity_eviction (α : Type) :
    (∀ (iterable : List α) (cap : Nat) (ops : List (PushOp α)),
      ((GeventDeque.init iterable (some cap)).applyPushes ops).items.length ≤ cap)
    ∧ (∀ (d : GeventDeque α) (cap : Nat) (x : α),
      d.maxlen = some cap → 1 ≤ cap → d.items.length = cap →
        (d.append x).items = d.items.drop 1 ++ [x]
        ∧ (d.appendleft x).items = x :: d.items.dropLast)
    ∧ (∀ (iterable xs : List α) (cap : Nat), cap ≤ xs.length →
        ((GeventDeque.init iterable (some cap)).applyPushes (xs.map PushOp.right)).items
            = xs.drop (xs.length - cap)
        ∧ ((GeventDeque.init iterable (some cap)).applyPushes (xs.map PushOp.left)).items.reverse
            = xs.drop (xs.length - cap)) := by
  refine ⟨?_, ?_, ?_⟩
  · intro iterable cap ops
    exact length_applyPushes_le cap ops _ rfl
      (length_foldl_dequeAppend_le cap iterable [] (by simp))
  · intro d cap x hm hcap hfull
    constructor
    · show dequeAppend d.maxlen d.items x = _
      rw [hm]
      show (d.items ++ [x]).drop (d.items.length + 1 - cap) = _
      have h1 : d.items.length + 1 - cap = 1 := by omega
      rw [h1, List.drop_append_of_le_length (by omega)]
    · show dequeAppendLeft d.maxlen d.items x = _
      rw [hm]
      show (x :: d.items).take cap = _
      have h1 : cap = (cap - 1) + 1 := by omega
      rw [h1, List.take_succ_cons, List.dropLast_eq_take, hfull]
  · intro iterable xs cap hcap
    have hlen : (GeventDeque.init iterable (some cap)).items.length ≤ cap :=
      length_foldl_dequeAppend_le cap iterable [] (by simp)
    constructor
    · rw [applyPushes_right_items cap xs _ rfl, foldl_dequeAppend_eq cap xs _ hlen]
      rw [List.drop_append_eq_append_drop,
        List.drop_eq_nil_of_le (by omega), List.nil_append]
      congr 1
      omega
    · rw [applyPushes_left_items cap xs _ rfl, foldl_dequeAppendLeft_eq cap xs _ hlen]
      rw [List.take_append_of_le_length (by simp; omega), List.take_reverse,
        List.reverse_reverse]

/-- Witness for C4 at capacity `2`: pushing `3` on the right of the full
deque `[1, 2]` evicts `1` from the left; pushing `3` on the left evicts `2`
from the right; and pushing `[4, 5, 6]` rightward into a fresh deque of
capacity `2` retains `[5, 6]`. -/
theorem c4_capacity_eviction_witness :
    ((GeventDeque.mk [1, 2] (some 2) true).maxlen = some 2
      ∧ 1 ≤ 2 ∧ (GeventDeque.mk [1, 2] (some 2) true).items.length = 2
      ∧ ((GeventDeque.mk [1, 2] (some 2) true).append 3).items = [2, 3]
      ∧ ((GeventDeque.mk [1, 2] (some 2) true).appendleft 3).items = [3, 1])
    ∧ (2 ≤ ([4, 5, 6] : List Nat).length
      ∧ ((GeventDeque.init ([] : List Nat) (some 2)).applyPushes
            ([4, 5, 6].map PushOp.right)).items = [5, 6]) := by
  have h2 := (c4_capacity_eviction Nat).2.1 (GeventDeque.mk [1, 2] (some 2) true) 2 3
    rfl (by decide) rfl
  have h3 := ((c4_capacity_eviction Nat).2.2 [] [4, 5, 6] 2 (by decide)).1
  refine ⟨⟨rfl, by decide, rfl, ?_, ?_⟩, by decide, ?_⟩
  · simpa using h2.1
  · simpa using h2.2
  · simpa using h3

end BlissCore
